import Mathlib

/-!
Verification development for the yosys-f4pga-plugins SDC plugin
(src/sdc-plugin/sdc.cc).

The file embeds the plugin's command layer (create_clock, get_clocks,
propagate_clocks) as executable Lean functions, translated from
src/sdc-plugin/sdc.cc.  The clock registry and the propagation engine
(clocks.cc / propagation.cc) are not part of the provided sources; the
definitions for them are modelled from the specification and are marked as
such in their doc comments.

Numeric command arguments (periods, waveform edges) are C++ `float`s in the
source; they are modelled as rationals `ℚ`.  All values appearing in the
statements below (10, 5, period / 2, period * divisor) are exactly
representable, so the model is exact on everything the theorems touch.
-/

deriving instance DecidableEq for Except

/-! ## Data model -/

/-- Clock kinds, from the spec's data model (clocks.h is not under src/):
EXPLICIT is user-declared, GENERATED is user-declared and derived from a named
clock, PROPAGATED is engine-derived. -/
inductive ClockKind
  | EXPLICIT
  | GENERATED
  | PROPAGATED
deriving DecidableEq, Repr

/-- A clock record of the registry: name, period, duty-cycle waveform,
source wires (by RTLIL id) and kind. -/
structure Clock where
  name : String
  period : ℚ
  rising_edge : ℚ
  falling_edge : ℚ
  source_nodes : List String
  kind : ClockKind
deriving DecidableEq, Repr

/-- An RTLIL wire: its id (a `\x7b\` - escaped RTLIL id such as a backslash
followed by `clk`) and its port index (0 when not a port). -/
structure Wire where
  name : String
  port_id : Nat
deriving DecidableEq, Repr

/-- An RTLIL module as the commands see it: a name and its wires. -/
structure RModule where
  name : String
  wires : List Wire
deriving DecidableEq, Repr

/-- Element kinds the propagation engine distinguishes, from the spec's Graph
Collaborator contract: clock-transparent buffers, clock dividers with a fixed
divisor attribute, and ordinary logic. -/
inductive CellKind
  | Buffer
  | Divider (divisor : Nat)
  | Other
deriving DecidableEq, Repr

/-- A cell instance of the connectivity view used by propagation: one input
wire, one output wire, and its element kind. -/
structure Cell where
  input : String
  output : String
  kind : CellKind
deriving DecidableEq, Repr

/-- The design as the commands see it: modules, the optional top module,
the externally owned selection (selected modules and selected
(module, wire) pairs), and the cell instances of the connectivity view. -/
structure Design where
  modules : List RModule
  top : Option String
  selected_modules : List String
  selected_wires : List (String × String)
  cells : List Cell
deriving DecidableEq, Repr

/-- The session state shared by the commands: the design, the clock registry
(insertion-ordered, spec §4.1), and `GetClocksCmd::logical_to_wire_map`, the
static wire-name → logical-name map of sdc.cc (modelled as an association
list keyed by wire name). -/
structure SdcState where
  design : Design
  registry : List Clock
  logical_to_wire_map : List (String × String)
deriving DecidableEq, Repr

/-- Command failures.  Constructors follow the spec's error taxonomy (§7);
in the source each is a `log_cmd_error` with a message:
`InvalidPeriod` = "Incorrect period value", `SelectionEmpty` =
"Target selection is empty", `NoTopModule` = "No top module selected",
`ParseError` = the `std::stof` exception. -/
inductive CmdError
  | UsageError (msg : String)
  | InvalidPeriod
  | SelectionEmpty
  | DuplicateNameConflict
  | NoTopModule
  | ParseError
deriving DecidableEq, Repr

/-! ## Small string utilities of the RTLIL layer -/

/-- `RTLIL::unescape_id` / `RTLIL::id2cstr`: strip the leading backslash of a
public RTLIL id (ids of the form backslash-dollar are kept verbatim). -/
def unescape_id (s : String) : String :=
  if s.startsWith "\\" ∧ ¬ s.startsWith "\\$" then s.drop 1 else s

/-- Numeric value of a decimal digit character. -/
def digitVal (c : Char) : Nat := c.toNat - 48

/-- Model of `std::stof` on the plain decimal literals the commands receive:
an optional sign, then digits with an optional fractional part; the longest
such prefix is converted, `none` when no digit is found (`std::stof` then
throws `std::invalid_argument`).  Exponents, hex floats, inf/nan and leading
whitespace are not modelled; no command input in this development uses them. -/
def stof (s : String) : Option ℚ :=
  let cs := s.data
  let sign : ℚ := if cs.head? = some '-' then -1 else 1
  let cs1 := if cs.head? = some '-' ∨ cs.head? = some '+' then cs.drop 1 else cs
  let intCs := cs1.takeWhile Char.isDigit
  let rest := cs1.drop intCs.length
  let fracCs :=
    if rest.head? = some '.' then (rest.drop 1).takeWhile Char.isDigit else []
  if intCs.isEmpty ∧ fracCs.isEmpty then none
  else
    let ip : ℚ := (intCs.foldl (fun a c => a * 10 + digitVal c) 0 : Nat)
    let fp : ℚ := ((fracCs.foldl (fun a c => a * 10 + digitVal c) 0 : Nat) : ℚ) /
      ((10 : ℚ) ^ fracCs.length)
    some (sign * (ip + fp))

/-- Whitespace-split of a string, modelling extraction with
`std::istream_iterator` (space-separated tokens). -/
def splitWs (s : String) : List String :=
  (s.splitOn " ").filter (fun t => t ≠ "")

/-- The two `ss >> rising_edge >> falling_edge` extractions of the
`-waveform` branch; a failed extraction leaves 0 (C++11 semantics).  The
source first runs a `std::copy_if` whose predicate (char not equal to open
brace, or char not equal to close brace) is a tautology, so it removes
nothing; it is therefore the identity and not modelled further. -/
def readFloat2 (s : String) : ℚ × ℚ :=
  let toks := splitWs s
  (((toks.get? 0).bind stof).getD 0, ((toks.get? 1).bind stof).getD 0)

/-! ## create_clock: argument parsing (sdc.cc lines 214-247) -/

/-- Accumulator of `CreateClockCmd::execute`'s argument loop: the local
variables of the C++ function plus the loop index at which the loop stopped. -/
structure CCAcc where
  name : String := ""
  is_waveform_specified : Bool := false
  rising_edge : ℚ := 0
  falling_edge : ℚ := 0
  period : ℚ := 0
  argidx : Nat := 1
deriving DecidableEq, Repr

/-- The `for (argidx = 1; ...)` switch loop of `CreateClockCmd::execute`:
`-add` is accepted and skipped, `-name` takes the next argument, `-period`
runs `std::stof` on the next argument, `-waveform` reads two edges from the
next argument; the first argument matching none of these stops the loop.
Each flag requires a following argument to be recognised (`argidx + 1 <
args.size()`), otherwise it too stops the loop.  The fuel argument strictly
dominates the number of iterations (`argidx` grows every step). -/
def ccLoop (args : List String) : Nat → Nat → CCAcc → Except CmdError CCAcc
  | 0, argidx, acc => Except.ok { acc with argidx := argidx }
  | fuel + 1, argidx, acc =>
    if h : argidx < args.length then
      let arg := args.get ⟨argidx, h⟩
      if arg = "-add" ∧ argidx + 1 < args.length then
        ccLoop args fuel (argidx + 1) acc
      else if arg = "-name" ∧ argidx + 1 < args.length then
        ccLoop args fuel (argidx + 2) { acc with name := args.getD (argidx + 1) "" }
      else if arg = "-period" ∧ argidx + 1 < args.length then
        match stof (args.getD (argidx + 1) "") with
        | some p => ccLoop args fuel (argidx + 2) { acc with period := p }
        | none => Except.error CmdError.ParseError
      else if arg = "-waveform" ∧ argidx + 1 < args.length then
        let rf := readFloat2 (args.getD (argidx + 1) "")
        ccLoop args fuel (argidx + 2)
          { acc with rising_edge := rf.1, falling_edge := rf.2,
                     is_waveform_specified := true }
      else
        Except.ok { acc with argidx := argidx }
    else
      Except.ok { acc with argidx := argidx }

/-- The whole argument-parsing phase of `CreateClockCmd::execute` (the local
variable initialisations and the switch loop). -/
def ccParse (args : List String) : Except CmdError CCAcc :=
  ccLoop args args.length 1 {}

/-! ## create_clock: selection and clock creation (sdc.cc lines 248-299) -/

/-- `CreateClockCmd::AddWirePrefix`: prepend `w:` to every remaining
argument, enforcing wire-object selection. -/
def addWirePfx (args : List String) (argidx : Nat) : List String :=
  args.take argidx ++ (args.drop argidx).map (fun w => "w:" ++ w)

/-- Modelled from the spec: `Pass::extra_args(args, argidx, design)` is the
external command layer's selection resolution (§3, §6: selection is an
external-collaborator concept the core consumes).  With no remaining
arguments the design's current selection is kept; otherwise the remaining
arguments become the new selection: every module is considered and a
`w:NAME` pattern selects the wires whose unescaped name is `NAME`. -/
def extra_args (args : List String) (argidx : Nat) (d : Design) : Design :=
  let pats := args.drop argidx
  if pats.isEmpty then d
  else
    { d with
      selected_modules := d.modules.map (fun m => m.name),
      selected_wires := d.modules.flatMap (fun m =>
        (m.wires.filter (fun w => pats.contains ("w:" ++ unescape_id w.name))).map
          (fun w => (m.name, w.name))) }

/-- The first selection scan of `CreateClockCmd::execute` (lines 256-269):
wires of selected modules that are themselves selected, in module order then
wire order. -/
def collectSelectedWires (d : Design) : List Wire :=
  (d.modules.filter (fun m => d.selected_modules.contains m.name)).flatMap
    (fun m => m.wires.filter (fun w => d.selected_wires.contains (m.name, w.name)))

/-- The fallback scan of `CreateClockCmd::execute` (lines 270-281): wires of
selected modules whose raw RTLIL id equals the `-name` argument. -/
def fallbackWires (d : Design) (name : String) : List Wire :=
  (d.modules.filter (fun m => d.selected_modules.contains m.name)).flatMap
    (fun m => m.wires.filter (fun w => w.name = name))

/-- The `design->select(module, wire)` calls of the fallback scan: every
matching wire of a selected module is appended to the selection. -/
def selectFallback (d : Design) (name : String) : Design :=
  { d with
    selected_wires := d.selected_wires ++
      ((d.modules.filter (fun m => d.selected_modules.contains m.name)).flatMap
        (fun m => (m.wires.filter (fun w => w.name = name)).map
          (fun w => (m.name, w.name)))) }

/-- Modelled from the spec: `ClockRegistry.Add` (§4.1; clocks.cc is not under
src/).  Fails with `InvalidPeriod` when `period ≤ 0`, with
`DuplicateNameConflict` when the name is already bound (create_clock passes
no extend directive); otherwise appends the new record, keeping insertion
order. -/
def Clock.Add (reg : List Clock) (name : String) (wires : List Wire)
    (period rising falling : ℚ) (kind : ClockKind) : Except CmdError (List Clock) :=
  if period ≤ 0 then Except.error CmdError.InvalidPeriod
  else if reg.any (fun c => c.name = name) then Except.error CmdError.DuplicateNameConflict
  else Except.ok (reg ++ [{ name := name, period := period, rising_edge := rising,
                            falling_edge := falling,
                            source_nodes := wires.map (fun w => w.name), kind := kind }])

/-- The design after `AddWirePrefix` + `extra_args` inside
`CreateClockCmd::execute`. -/
def ccResolve (args : List String) (pa : CCAcc) (st : SdcState) : Design :=
  extra_args (addWirePfx args pa.argidx) pa.argidx st.design

/-- The wire list create_clock ends up targeting: the selected wires, or —
exactly when there are none — the wires found by the name fallback. -/
def ccSelection (args : List String) (pa : CCAcc) (st : SdcState) : List Wire :=
  if (collectSelectedWires (ccResolve args pa st)).isEmpty then
    fallbackWires (ccResolve args pa st) pa.name
  else collectSelectedWires (ccResolve args pa st)

/-- The design after create_clock's selection phase: unchanged, except that
the fallback's `design->select(module, wire)` calls extend the selection
when the initial selection scan was empty. -/
def ccDesign2 (args : List String) (pa : CCAcc) (st : SdcState) : Design :=
  if (collectSelectedWires (ccResolve args pa st)).isEmpty then
    selectFallback (ccResolve args pa st) pa.name
  else ccResolve args pa st

/-- Body of `CreateClockCmd::execute` after argument parsing (lines 248-292):
the period check, selection resolution, the auto-select fallback, the
empty-selection error, clock-name defaulting from the first selected wire,
waveform defaulting, and the registry insertion.  The second component of a
successful result is the list of log messages emitted (none: the only log
statement on this path is compiled out under `SDC_DEBUG`). -/
def ccBody (args : List String) (pa : CCAcc) (st : SdcState) :
    Except CmdError (SdcState × List String) :=
  if pa.period ≤ 0 then Except.error CmdError.InvalidPeriod
  else
    match ccSelection args pa st with
    | [] => Except.error CmdError.SelectionEmpty
    | w :: rest =>
      let cname := if pa.name = "" then unescape_id w.name else pa.name
      let re := if pa.is_waveform_specified then pa.rising_edge else 0
      let fe := if pa.is_waveform_specified then pa.falling_edge else pa.period / 2
      match Clock.Add st.registry cname (w :: rest) pa.period re fe ClockKind.EXPLICIT with
      | Except.error e => Except.error e
      | Except.ok reg2 =>
        Except.ok ({ st with design := ccDesign2 args pa st, registry := reg2 }, [])

/-- `CreateClockCmd::execute` (sdc.cc lines 214-293).  An error result models
`log_cmd_error` (or a thrown parse exception): the command aborts and the
session state is unchanged — a new state is produced only on success. -/
def CreateClockCmd.execute (args : List String) (st : SdcState) :
    Except CmdError (SdcState × List String) :=
  if args.length < 4 then Except.error (CmdError.UsageError "Incorrect number of arguments")
  else
    match ccParse args with
    | Except.error e => Except.error e
    | Except.ok pa => ccBody args pa st

/-! ## get_clocks (sdc.cc lines 304-423) -/

/-- `GetClocksCmd::extract_list`: whitespace-split of one argument into a
token list. -/
def extract_list (s : String) : List String :=
  splitWs s

/-- First binding of an association list, modelling `std::map::find`. -/
def mapFind (m : List (String × String)) (k : String) : Option String :=
  (m.find? (fun e => e.1 = k)).map (fun e => e.2)

/-- Insert-or-update of an association list, modelling `map[k] = v`. -/
def mapInsert (m : List (String × String)) (k v : String) : List (String × String) :=
  if m.any (fun e => e.1 = k) then m.map (fun e => if e.1 = k then (k, v) else e)
  else m ++ [(k, v)]

/-- `GetClocksCmd::create_clock_with_name`: record the logical name of a
wire in the static map (`logical_to_wire_map[wire_name] = logical_name`).
No command in sdc.cc ever calls it. -/
def GetClocksCmd.create_clock_with_name (m : List (String × String))
    (logical_name wire_name : String) : List (String × String) :=
  mapInsert m wire_name logical_name

/-- Key-ordered insertion, used to model `std::map` iteration order. -/
def insertByKey (p : String × String) : List (String × String) → List (String × String)
  | [] => [p]
  | q :: qs => if p.1 ≤ q.1 then p :: q :: qs else q :: insertByKey p qs

/-- Sort an association list by key, modelling that a `std::map` iterates
in ascending key order. -/
def sortByKey (l : List (String × String)) : List (String × String) :=
  l.foldr insertByKey []

/-- Modelled from the spec: `Clocks::GetClocks(design)` (clocks.cc is not
under src/).  It enumerates the registry's clocks as a
`std::map<std::string, RTLIL::Wire *>` from clock name to the clock's first
source wire; being a `std::map`, iteration is in ascending key order, not
registry insertion order.  Entries are `(clock name, source wire id)`. -/
def Clocks.GetClocks (st : SdcState) : List (String × String) :=
  sortByKey (st.registry.filterMap (fun c =>
    (c.source_nodes.head?).map (fun w => (c.name, w))))

/-- The switch loop of `GetClocksCmd::execute` (lines 341-355):
`-include_generated_clocks` sets a flag, `-of` reads a net list from the next
argument, any other argument starting with a dash is an unknown-option error,
and the first remaining argument stops the loop.  Returns the flag, the net
list and the stop index. -/
def gcLoop (args : List String) : Nat → Nat → Bool → List String →
    Except CmdError (Bool × List String × Nat)
  | 0, argidx, flag, nets => Except.ok (flag, nets, argidx)
  | fuel + 1, argidx, flag, nets =>
    if h : argidx < args.length then
      let arg := args.get ⟨argidx, h⟩
      if arg = "-include_generated_clocks" then
        gcLoop args fuel (argidx + 1) true nets
      else if arg = "-of" ∧ argidx + 1 < args.length then
        gcLoop args fuel (argidx + 2) flag (extract_list (args.getD (argidx + 1) ""))
      else if arg.data.head? = some '-' then
        Except.error (CmdError.UsageError ("Unknown option " ++ arg))
      else
        Except.ok (flag, nets, argidx)
    else
      Except.ok (flag, nets, argidx)

/-- `GetClocksCmd::execute` (sdc.cc lines 328-413).  The result of a
successful run is the Tcl result list together with the warnings emitted.
The parsed switch values (`include_generated_clocks`, `clocks_nets`) and the
pattern list (`clocks_list`) are bound exactly as in the source — and, as in
the source, never used afterwards.  For every clock wire of the name-keyed
clocks map, the wire name (`RTLIL::id2cstr`) is looked up in
`logical_to_wire_map`; only mapped wires contribute, and they contribute
their logical name.  (The null-design and null-interpreter guards of the
source concern the hosting process, which is always live here.) -/
def GetClocksCmd.execute (args : List String) (st : SdcState) :
    Except CmdError (List String × List String) :=
  match gcLoop args args.length 1 false [] with
  | Except.error e => Except.error e
  | Except.ok (include_generated_clocks, clocks_nets, argidx) =>
    let _ := include_generated_clocks
    let _ := clocks_nets
    let clocks_list := args.drop argidx
    let _ := clocks_list
    let clocks := Clocks.GetClocks st
    let warns1 : List String :=
      if clocks.length = 0 then ["No clocks found in design"] else []
    let result := clocks.filterMap (fun c =>
      mapFind st.logical_to_wire_map (unescape_id c.2))
    let warns2 : List String :=
      if clocks.length = 0 then ["No clocks found in design after processing"] else []
    Except.ok (result, warns1 ++ warns2)

/-- Duplicate suppression by name keeping first occurrences. -/
def dedupNames (l : List String) : List String :=
  l.foldl (fun acc n => if acc.contains n then acc else acc ++ [n]) []

/-- The get_clocks query exactly as the SPEC states it (§4.5), written for
comparison against the implementation: filter the registry's clocks by the
generated-clock flag, the `-of` node association and the name patterns,
suppress duplicate names, and keep registry insertion order. -/
def GetClocksSpec (include_generated : Bool) (ofNets : List String)
    (patterns : List String) (st : SdcState) : List String :=
  dedupNames ((st.registry.filter (fun c =>
      (include_generated || !(c.kind == ClockKind.GENERATED)) &&
      (ofNets.isEmpty || c.source_nodes.any (fun n => ofNets.contains (unescape_id n))) &&
      (patterns.isEmpty || patterns.contains c.name))).map (fun c => c.name))

/-! ## Propagation engine (spec §4.2) and propagate_clocks (sdc.cc lines 426-458) -/

/-- `RemoveAllOfKind` of the spec's ClockRegistry (§4.1): drop every clock of
the given kind, keeping the order of the rest. -/
def RemoveAllOfKind (k : ClockKind) (reg : List Clock) : List Clock :=
  reg.filter (fun c => !(c.kind == k))

/-- Output wires of the clock-transparent cells driven by a node. -/
def bufferOuts (cells : List Cell) (n : String) : List String :=
  (cells.filter (fun c => c.kind = CellKind.Buffer ∧ c.input = n)).map
    (fun c => c.output)

/-- Modelled from the spec: the breadth-first worklist traversal of §4.2/§9 —
an explicit queue of node ids plus a visited set; a node is processed at most
once, so cyclic connectivity terminates.  Returns the visited nodes.  The
fuel argument only bounds the iteration count; `bfsFuel` below always
suffices, since every step either retires a queue entry without growth or
visits a new node. -/
def bfsBuffers (cells : List Cell) : Nat → List String → List String → List String
  | 0, _, visited => visited
  | _ + 1, [], visited => visited
  | fuel + 1, n :: queue, visited =>
    if visited.contains n then bfsBuffers cells fuel queue visited
    else bfsBuffers cells fuel (queue ++ bufferOuts cells n) (visited ++ [n])

/-- An iteration bound for `bfsBuffers`: at most `starts.length` initial
entries, and each of the at most `cells.length + starts.length` distinct
visited nodes enqueues at most `cells.length` successors. -/
def bfsFuel (cells : List Cell) (starts : List String) : Nat :=
  (starts.length + cells.length + 1) * (cells.length + 1)

/-- Nodes reachable from the start nodes through clock-transparent cells
(the start nodes included). -/
def bufferReach (cells : List Cell) (starts : List String) : List String :=
  bfsBuffers cells (bfsFuel cells starts) starts []

/-- Whether some clock of the registry is rooted at the node. -/
def hasClockOn (reg : List Clock) (n : String) : Bool :=
  reg.any (fun c => c.source_nodes.contains n)

/-- Modelled from the spec: one clock's step of the transparent sub-pass
(§4.2 step 1).  Every node reached forward through clock-transparent cells —
other than the clock's own sources and nodes already carrying a clock
(first-seen wins) — receives a PROPAGATED clock named after it, inheriting
the period and waveform of the clock reaching it. -/
def transparentStep (cells : List Cell) (acc : List Clock) (c : Clock) : List Clock :=
  let reached := (bufferReach cells c.source_nodes).filter
    (fun n => !(c.source_nodes.contains n) && !(hasClockOn acc n))
  acc ++ reached.map (fun n =>
    { name := unescape_id n, period := c.period, rising_edge := c.rising_edge,
      falling_edge := c.falling_edge, source_nodes := [n],
      kind := ClockKind.PROPAGATED })

/-- Modelled from the spec: the transparent (buffer) sub-pass — the step
above for each clock present at the start of the pass, in registry insertion
order. -/
def transparentPass (cells : List Cell) (reg : List Clock) : List Clock :=
  reg.foldl (transparentStep cells) reg

/-- Modelled from the spec: one clock's step of the divider sub-pass (§4.2
step 2).  Every divider cell whose input is reached forward from the clock's
sources yields, at its output (unless a clock already sits there), a
PROPAGATED clock with `period = source.period * divisor`, `rising_edge = 0`
and `falling_edge = period / 2`. -/
def dividerStep (cells : List Cell) (acc : List Clock) (c : Clock) : List Clock :=
  let reached := bufferReach cells c.source_nodes
  let divOuts := cells.filterMap (fun cell =>
    match cell.kind with
    | CellKind.Divider d => if reached.contains cell.input then some (cell.output, d) else none
    | _ => none)
  acc ++ (divOuts.filter (fun p => !(hasClockOn acc p.1))).map (fun p =>
    { name := unescape_id p.1, period := c.period * (p.2 : ℚ), rising_edge := 0,
      falling_edge := c.period * (p.2 : ℚ) / 2, source_nodes := [p.1],
      kind := ClockKind.PROPAGATED })

/-- Modelled from the spec: the divider sub-pass — the step above for each
clock available after the transparent pass. -/
def dividerPass (cells : List Cell) (reg : List Clock) : List Clock :=
  reg.foldl (dividerStep cells) reg

/-- Modelled from the spec: `BufferPropagation::Run` (propagation.cc is not
under src/): the engine first discards every previously derived PROPAGATED
clock (`RemoveAllOfKind(PROPAGATED)`, §4.2 "before each run"), then performs
the transparent sub-pass. -/
def BufferPropagation.Run (cells : List Cell) (reg : List Clock) : List Clock :=
  transparentPass cells (RemoveAllOfKind ClockKind.PROPAGATED reg)

/-- Modelled from the spec: `ClockDividerPropagation::Run` (propagation.cc is
not under src/): the divider sub-pass. -/
def ClockDividerPropagation.Run (cells : List Cell) (reg : List Clock) : List Clock :=
  dividerPass cells reg

/-- One full engine run: the two sub-passes in their fixed order. -/
def propagationRun (cells : List Cell) (reg : List Clock) : List Clock :=
  ClockDividerPropagation.Run cells (BufferPropagation.Run cells reg)

/-- Observable events of a propagate_clocks run, in emission order: the
ignored-arguments warning, the "Perform clock propagation" log line, the
`Run()` of each of the two sub-passes, and the
`Clocks::UpdateAbc9DelayTarget` recomputation. -/
inductive PropEvent
  | WarnIgnoredArgs
  | LogPerform
  | RunBuffer
  | RunDivider
  | UpdateDelayTarget
deriving DecidableEq, Repr

/-- `PropagateClocksCmd::execute` (sdc.cc lines 438-457): warn when arguments
are passed, fail fatally when no top module is present, otherwise run the two
propagation sub-passes in order and recompute the downstream delay target
once.  A successful result carries the new state and the emitted events. -/
def PropagateClocksCmd.execute (args : List String) (st : SdcState) :
    Except CmdError (SdcState × List PropEvent) :=
  let warns : List PropEvent := if 1 < args.length then [PropEvent.WarnIgnoredArgs] else []
  match st.design.top with
  | none => Except.error CmdError.NoTopModule
  | some _ =>
    Except.ok ({ st with registry := propagationRun st.design.cells st.registry },
      warns ++ [PropEvent.LogPerform, PropEvent.RunBuffer, PropEvent.RunDivider,
                PropEvent.UpdateDelayTarget])

/-- Discriminator for the engine-level events of a run: the two sub-passes
and the delay-target recomputation. -/
def isEngineEvent : PropEvent → Bool
  | PropEvent.RunBuffer => true
  | PropEvent.RunDivider => true
  | PropEvent.UpdateDelayTarget => true
  | _ => false

/-! ## Derived definitions and concrete states used by the theorems -/

/-- The list get_clocks actually produces for a state: every entry of the
name-keyed clocks map whose wire name has a binding in
`logical_to_wire_map`, replaced by its logical name, in map (key) order. -/
def gcListing (st : SdcState) : List String :=
  (Clocks.GetClocks st).filterMap (fun c =>
    mapFind st.logical_to_wire_map (unescape_id c.2))

/-- Run a sequence of create_clock invocations, keeping the previous state
whenever an invocation fails (an aborted command leaves the session
unchanged). -/
def runCreates : List (List String) → SdcState → SdcState
  | [], st => st
  | a :: rest, st =>
    runCreates rest
      (match CreateClockCmd.execute a st with
        | Except.ok r => r.1
        | Except.error _ => st)

/-- A session with an empty design and no top module. -/
def stEmpty : SdcState :=
  { design := { modules := [], top := none, selected_modules := [],
                selected_wires := [], cells := [] },
    registry := [], logical_to_wire_map := [] }

/-- A design with a top module `top` holding one port wire whose RTLIL id is
a backslash followed by `clk`; the module is selected, no wire is. -/
def dTop : Design :=
  { modules := [{ name := "top", wires := [{ name := "\\clk", port_id := 1 }] }],
    top := some "top", selected_modules := ["top"], selected_wires := [],
    cells := [] }

/-- A fresh session on `dTop`. -/
def stTop : SdcState := { design := dTop, registry := [], logical_to_wire_map := [] }

/-- The parse result of `create_clock -name \clk -period 10`. -/
def paNameClk : CCAcc := { name := "\\clk", period := 10, argidx := 5 }

/-- The parse result of `create_clock -name c -period 0` (period 0 parsed). -/
def paPeriod0 : CCAcc := { name := "c", period := 0, argidx := 5 }

/-- The state after `create_clock -name \clk -period 10` on `stTop`: the
wire was auto-selected and the clock registered with waveform (0, 5). -/
def stTopClk : SdcState :=
  { design := { dTop with selected_wires := [("top", "\\clk")] },
    registry := [{ name := "\\clk", period := 10, rising_edge := 0, falling_edge := 5,
                   source_nodes := ["\\clk"], kind := ClockKind.EXPLICIT }],
    logical_to_wire_map := [] }

/-- A session whose registry holds one explicit clock `clk` rooted at the
`clk` wire, and whose logical map binds wire `clk` to logical name `CLK`
(built with `create_clock_with_name`). -/
def stC2 : SdcState :=
  { design := dTop,
    registry := [{ name := "clk", period := 10, rising_edge := 0, falling_edge := 5,
                   source_nodes := ["\\clk"], kind := ClockKind.EXPLICIT }],
    logical_to_wire_map := GetClocksCmd.create_clock_with_name [] "CLK" "clk" }

/-- A design with one explicit clock source, a clock-transparent buffer and a
divide-by-two divider behind it. -/
def dProp : Design :=
  { modules := [{ name := "top",
                  wires := [{ name := "\\clk", port_id := 1 },
                            { name := "\\buf_o", port_id := 0 },
                            { name := "\\div_o", port_id := 0 }] }],
    top := some "top", selected_modules := ["top"], selected_wires := [],
    cells := [{ input := "\\clk", output := "\\buf_o", kind := CellKind.Buffer },
              { input := "\\buf_o", output := "\\div_o", kind := CellKind.Divider 2 }] }

/-- A session on `dProp` with one explicit clock of period 10. -/
def stProp : SdcState :=
  { design := dProp,
    registry := [{ name := "clk", period := 10, rising_edge := 0, falling_edge := 5,
                   source_nodes := ["\\clk"], kind := ClockKind.EXPLICIT }],
    logical_to_wire_map := [] }

/-- The state after one propagate_clocks run on `stProp`. -/
def stProp1 : SdcState :=
  { stProp with registry := propagationRun stProp.design.cells stProp.registry }

/-- The state after a second propagate_clocks run. -/
def stProp2 : SdcState :=
  { stProp1 with registry := propagationRun stProp1.design.cells stProp1.registry }

/-- The event trace of a successful argument-free propagate_clocks run. -/
def evProp : List PropEvent :=
  [PropEvent.LogPerform, PropEvent.RunBuffer, PropEvent.RunDivider,
   PropEvent.UpdateDelayTarget]

/-! ## Lemmas: the propagation engine only appends PROPAGATED clocks -/

/-- Appending clocks that are all PROPAGATED does not change the
non-PROPAGATED part of a registry. -/
theorem removeProp_append (l1 l2 : List Clock)
    (h : ∀ c ∈ l2, c.kind = ClockKind.PROPAGATED) :
    RemoveAllOfKind ClockKind.PROPAGATED (l1 ++ l2) =
      RemoveAllOfKind ClockKind.PROPAGATED l1 := by
  unfold RemoveAllOfKind
  rw [List.filter_append]
  have h2 : l2.filter (fun c => !(c.kind == ClockKind.PROPAGATED)) = [] := by
    rw [List.filter_eq_nil_iff]
    intro c hc
    simp [h c hc]
  rw [h2, List.append_nil]

/-- One transparent step leaves the non-PROPAGATED clocks unchanged. -/
theorem removeProp_transparentStep (cells : List Cell) (acc : List Clock) (c : Clock) :
    RemoveAllOfKind ClockKind.PROPAGATED (transparentStep cells acc c) =
      RemoveAllOfKind ClockKind.PROPAGATED acc := by
  unfold transparentStep
  apply removeProp_append
  intro x hx
  simp only [List.mem_map] at hx
  obtain ⟨n, -, rfl⟩ := hx
  rfl

/-- One divider step leaves the non-PROPAGATED clocks unchanged. -/
theorem removeProp_dividerStep (cells : List Cell) (acc : List Clock) (c : Clock) :
    RemoveAllOfKind ClockKind.PROPAGATED (dividerStep cells acc c) =
      RemoveAllOfKind ClockKind.PROPAGATED acc := by
  unfold dividerStep
  apply removeProp_append
  intro x hx
  simp only [List.mem_map] at hx
  obtain ⟨p, -, rfl⟩ := hx
  rfl

/-- The transparent sub-pass leaves the non-PROPAGATED clocks unchanged. -/
theorem removeProp_foldl_transparent (cells : List Cell) (l : List Clock) :
    ∀ acc, RemoveAllOfKind ClockKind.PROPAGATED (l.foldl (transparentStep cells) acc) =
      RemoveAllOfKind ClockKind.PROPAGATED acc := by
  induction l with
  | nil => intro acc; rfl
  | cons a t ih => intro acc; rw [List.foldl_cons, ih, removeProp_transparentStep]

/-- The divider sub-pass leaves the non-PROPAGATED clocks unchanged. -/
theorem removeProp_foldl_divider (cells : List Cell) (l : List Clock) :
    ∀ acc, RemoveAllOfKind ClockKind.PROPAGATED (l.foldl (dividerStep cells) acc) =
      RemoveAllOfKind ClockKind.PROPAGATED acc := by
  induction l with
  | nil => intro acc; rfl
  | cons a t ih => intro acc; rw [List.foldl_cons, ih, removeProp_dividerStep]

/-- Discarding a kind twice is the same as discarding it once. -/
theorem removeAllOfKind_idem (k : ClockKind) (reg : List Clock) :
    RemoveAllOfKind k (RemoveAllOfKind k reg) = RemoveAllOfKind k reg := by
  unfold RemoveAllOfKind
  rw [List.filter_filter]
  simp

/-- A full engine run is idempotent: its output's non-PROPAGATED part equals
the input's, so a second run recomputes exactly the same registry. -/
theorem propagationRun_idem (cells : List Cell) (reg : List Clock) :
    propagationRun cells (propagationRun cells reg) = propagationRun cells reg := by
  have key : RemoveAllOfKind ClockKind.PROPAGATED
      (dividerPass cells (transparentPass cells (RemoveAllOfKind ClockKind.PROPAGATED reg))) =
      RemoveAllOfKind ClockKind.PROPAGATED reg := by
    unfold dividerPass transparentPass
    rw [removeProp_foldl_divider, removeProp_foldl_transparent, removeAllOfKind_idem]
  conv_lhs => unfold propagationRun ClockDividerPropagation.Run BufferPropagation.Run
  rw [key]
  rfl

/-- Successful propagate_clocks runs have a fixed shape: the registry is
replaced by a full engine run and the event trace is the warning (when
arguments were passed) followed by the log line, the two sub-passes and the
delay-target recomputation. -/
theorem propagate_execute_ok_inv (args : List String) (st st2 : SdcState)
    (ev : List PropEvent)
    (h : PropagateClocksCmd.execute args st = Except.ok (st2, ev)) :
    st2 = { st with registry := propagationRun st.design.cells st.registry } ∧
    ev = (if 1 < args.length then [PropEvent.WarnIgnoredArgs] else []) ++
         [PropEvent.LogPerform, PropEvent.RunBuffer, PropEvent.RunDivider,
          PropEvent.UpdateDelayTarget] := by
  unfold PropagateClocksCmd.execute at h
  cases htop : st.design.top with
  | none => rw [htop] at h; cases h
  | some t =>
    rw [htop] at h
    cases h
    exact ⟨rfl, rfl⟩

/-! ## Claims about propagate_clocks -/

/-- C1: invoking propagate_clocks twice in succession with the graph
unchanged yields the same PROPAGATED clock set as invoking it once — before
each run the engine discards all existing PROPAGATED clocks
(`RemoveAllOfKind(PROPAGATED)`), so re-invocation neither duplicates nor
accumulates derived clocks.  (Here the whole registry, not just its
PROPAGATED part, is reproduced identically.) -/
theorem propagate_clocks_idempotent (args1 args2 : List String)
    (st st1 st2 : SdcState) (ev1 ev2 : List PropEvent)
    (h1 : PropagateClocksCmd.execute args1 st = Except.ok (st1, ev1))
    (h2 : PropagateClocksCmd.execute args2 st1 = Except.ok (st2, ev2)) :
    st2.registry.filter (fun c => c.kind == ClockKind.PROPAGATED) =
      st1.registry.filter (fun c => c.kind == ClockKind.PROPAGATED) := by
  obtain ⟨hst1, -⟩ := propagate_execute_ok_inv args1 st st1 ev1 h1
  obtain ⟨hst2, -⟩ := propagate_execute_ok_inv args2 st1 st2 ev2 h2
  subst hst1
  subst hst2
  rw [propagationRun_idem]

/-- Witness for C1: two concrete propagate_clocks runs on a design with a
buffer and a divide-by-two divider; the second run reproduces the first's
registry, so the PROPAGATED sets agree. -/
theorem propagate_clocks_idempotent_witness :
    PropagateClocksCmd.execute ["propagate_clocks"] stProp = Except.ok (stProp1, evProp) ∧
    PropagateClocksCmd.execute ["propagate_clocks"] stProp1 = Except.ok (stProp2, evProp) ∧
    stProp2.registry.filter (fun c => c.kind == ClockKind.PROPAGATED) =
      stProp1.registry.filter (fun c => c.kind == ClockKind.PROPAGATED) :=
  ⟨rfl, rfl,
   propagate_clocks_idempotent ["propagate_clocks"] ["propagate_clocks"]
     stProp stProp1 stProp2 evProp evProp rfl rfl⟩

/-- C5: propagate_clocks on a design with no top module fails with the fatal
NoTopModule error (`log_cmd_error "No top module selected"`); the error
result carries no events and no new state, so no propagation sub-pass has
executed. -/
theorem propagate_clocks_no_top (args : List String) (st : SdcState)
    (h : st.design.top = none) :
    PropagateClocksCmd.execute args st = Except.error CmdError.NoTopModule := by
  unfold PropagateClocksCmd.execute
  rw [h]

/-- Witness for C5: the empty design has no top module and the run fails. -/
theorem propagate_clocks_no_top_witness :
    stEmpty.design.top = none ∧
    PropagateClocksCmd.execute ["propagate_clocks"] stEmpty =
      Except.error CmdError.NoTopModule :=
  ⟨rfl, propagate_clocks_no_top ["propagate_clocks"] stEmpty rfl⟩

/-- C6: every successful propagate_clocks run executes exactly two sub-passes
in fixed order — buffer propagation, then clock-divider propagation — and
triggers the delay-target recomputation exactly once, after both sub-passes:
the engine-level events of the trace are exactly
[RunBuffer, RunDivider, UpdateDelayTarget]. -/
theorem propagate_clocks_subpass_order (args : List String) (st st2 : SdcState)
    (ev : List PropEvent)
    (h : PropagateClocksCmd.execute args st = Except.ok (st2, ev)) :
    ev.filter isEngineEvent =
      [PropEvent.RunBuffer, PropEvent.RunDivider, PropEvent.UpdateDelayTarget] := by
  obtain ⟨-, hev⟩ := propagate_execute_ok_inv args st st2 ev h
  subst hev
  by_cases hl : 1 < args.length
  · simp [hl, isEngineEvent]
  · simp [hl, isEngineEvent]

/-- Witness for C6: the concrete run of the C1 witness has engine events
[RunBuffer, RunDivider, UpdateDelayTarget]. -/
theorem propagate_clocks_subpass_order_witness :
    PropagateClocksCmd.execute ["propagate_clocks"] stProp = Except.ok (stProp1, evProp) ∧
    evProp.filter isEngineEvent =
      [PropEvent.RunBuffer, PropEvent.RunDivider, PropEvent.UpdateDelayTarget] :=
  ⟨rfl, propagate_clocks_subpass_order ["propagate_clocks"] stProp stProp1 evProp rfl⟩

/-! ## Lemmas: inversion of create_clock -/

/-- Successful `Clock.Add` appends exactly one record with the given fields. -/
theorem clock_add_ok_inv (reg : List Clock) (name : String) (wires : List Wire)
    (period rising falling : ℚ) (kind : ClockKind) (reg2 : List Clock)
    (h : Clock.Add reg name wires period rising falling kind = Except.ok reg2) :
    reg2 = reg ++ [{ name := name, period := period, rising_edge := rising,
                     falling_edge := falling,
                     source_nodes := wires.map (fun w => w.name), kind := kind }] := by
  unfold Clock.Add at h
  split at h
  · cases h
  · split at h
    · cases h
    · cases h
      rfl

/-- Inversion of the post-parsing body of create_clock: a successful run
emits no log message, keeps the logical-name map, produces either the
resolved selection or (exactly when that selection is empty) the resolved
selection extended by the auto-select fallback, and appends exactly one
EXPLICIT clock whose period is the parsed period and whose waveform is the
parsed one, or (0, period / 2) when none was specified. -/
theorem ccBody_ok_inv (args : List String) (pa : CCAcc) (st st2 : SdcState)
    (logs : List String)
    (h : ccBody args pa st = Except.ok (st2, logs)) :
    logs = [] ∧ 0 < pa.period ∧
    st2.logical_to_wire_map = st.logical_to_wire_map ∧
    (st2.design = ccResolve args pa st ∨
      (collectSelectedWires (ccResolve args pa st) = [] ∧
       st2.design = selectFallback (ccResolve args pa st) pa.name)) ∧
    ∃ c, st2.registry = st.registry ++ [c] ∧ c.period = pa.period ∧
      c.kind = ClockKind.EXPLICIT ∧
      c.rising_edge = (if pa.is_waveform_specified then pa.rising_edge else 0) ∧
      c.falling_edge = (if pa.is_waveform_specified then pa.falling_edge
                        else pa.period / 2) := by
  unfold ccBody at h
  split at h
  · cases h
  · rename_i hper
    cases hsel : ccSelection args pa st with
    | nil => rw [hsel] at h; cases h
    | cons w rest =>
      rw [hsel] at h
      dsimp only at h
      cases hadd : Clock.Add st.registry
          (if pa.name = "" then unescape_id w.name else pa.name) (w :: rest) pa.period
          (if pa.is_waveform_specified then pa.rising_edge else 0)
          (if pa.is_waveform_specified then pa.falling_edge else pa.period / 2)
          ClockKind.EXPLICIT with
      | error e => rw [hadd] at h; cases h
      | ok reg2 =>
        rw [hadd] at h
        cases h
        have hreg := clock_add_ok_inv _ _ _ _ _ _ _ _ hadd
        refine ⟨rfl, lt_of_not_le hper, rfl, ?_, ?_⟩
        · unfold ccDesign2
          by_cases he : (collectSelectedWires (ccResolve args pa st)).isEmpty
          · exact Or.inr ⟨List.isEmpty_iff.mp he, by rw [if_pos he]⟩
          · exact Or.inl (by rw [if_neg he])
        · exact ⟨_, hreg, rfl, rfl, rfl, rfl⟩

/-- Inversion of create_clock itself: success implies the arity check passed,
parsing succeeded, and the body succeeded on the parse result. -/
theorem create_execute_ok_inv (args : List String) (st : SdcState)
    (r : SdcState × List String)
    (h : CreateClockCmd.execute args st = Except.ok r) :
    ¬ args.length < 4 ∧
    ∃ pa, ccParse args = Except.ok pa ∧ ccBody args pa st = Except.ok r := by
  unfold CreateClockCmd.execute at h
  split at h
  · cases h
  · rename_i h4
    cases hp : ccParse args with
    | error e => rw [hp] at h; cases h
    | ok pa => rw [hp] at h; exact ⟨h4, pa, rfl, h⟩

/-! ## Claims about create_clock -/

/-- C3: every successful create_clock call whose parsed arguments carry no
`-waveform` stores a clock with `rising_edge = 0` and
`falling_edge = period / 2`. -/
theorem create_clock_default_waveform (args : List String) (st st2 : SdcState)
    (logs : List String) (pa : CCAcc)
    (hp : ccParse args = Except.ok pa)
    (hw : pa.is_waveform_specified = false)
    (hex : CreateClockCmd.execute args st = Except.ok (st2, logs)) :
    ∃ c, st2.registry = st.registry ++ [c] ∧ c.period = pa.period ∧
      c.rising_edge = 0 ∧ c.falling_edge = pa.period / 2 := by
  obtain ⟨-, pa2, hp2, hb⟩ := create_execute_ok_inv args st (st2, logs) hex
  rw [hp] at hp2
  cases hp2
  obtain ⟨-, -, -, -, c, hreg, hper, -, hre, hfe⟩ := ccBody_ok_inv args pa st st2 logs hb
  rw [hw] at hre hfe
  simp only [if_neg Bool.false_ne_true] at hre hfe
  exact ⟨c, hreg, hper, hre, hfe⟩

/-- Witness for C3: `create_clock -name \clk -period 10` on a fresh design
succeeds with no waveform argument and stores the waveform (0, 5) —
`paNameClk.period / 2 = 5`. -/
theorem create_clock_default_waveform_witness :
    ccParse ["create_clock", "-name", "\\clk", "-period", "10"] = Except.ok paNameClk ∧
    paNameClk.is_waveform_specified = false ∧
    paNameClk.period = 10 ∧
    CreateClockCmd.execute ["create_clock", "-name", "\\clk", "-period", "10"] stTop =
      Except.ok (stTopClk, []) ∧
    (∃ c, stTopClk.registry = stTop.registry ++ [c] ∧ c.period = paNameClk.period ∧
      c.rising_edge = 0 ∧ c.falling_edge = paNameClk.period / 2) ∧
    paNameClk.period / 2 = 5 :=
  ⟨by with_unfolding_all rfl, rfl, rfl, by with_unfolding_all rfl,
   create_clock_default_waveform ["create_clock", "-name", "\\clk", "-period", "10"]
     stTop stTopClk [] paNameClk (by with_unfolding_all rfl) rfl
     (by with_unfolding_all rfl),
   by norm_num [paNameClk]⟩

/-- C4 (amended): a create_clock call that passes the arity check (at least
four arguments) and parses with a period value ≤ 0 — in particular when
`-period` is absent and the default 0 is kept — fails with InvalidPeriod;
a call with fewer than four arguments also fails and adds no clock, but with
the usage error "Incorrect number of arguments" instead of InvalidPeriod.
Either error aborts the command, so no clock is added (a new state exists
only on success). -/
theorem create_clock_invalid_period :
    (∀ args st pa, ccParse args = Except.ok pa → ¬ args.length < 4 →
       pa.period ≤ 0 →
       CreateClockCmd.execute args st = Except.error CmdError.InvalidPeriod) ∧
    (∀ args st, args.length < 4 →
       CreateClockCmd.execute args st =
         Except.error (CmdError.UsageError "Incorrect number of arguments")) := by
  constructor
  · intro args st pa hp h4 hper
    unfold CreateClockCmd.execute
    rw [if_neg h4, hp]
    dsimp only
    unfold ccBody
    rw [if_pos hper]
  · intro args st h4
    unfold CreateClockCmd.execute
    rw [if_pos h4]

/-- Counterexample for C4: `create_clock -period 0` carries an explicit
period value 0 ≤ 0 (the parser yields period 0), yet the command fails with
the arity usage error, not InvalidPeriod. -/
theorem create_clock_invalid_period_cex :
    ccParse ["create_clock", "-period", "0"] =
      Except.ok { name := "", is_waveform_specified := false, rising_edge := 0,
                  falling_edge := 0, period := 0, argidx := 3 } ∧
    CreateClockCmd.execute ["create_clock", "-period", "0"] stEmpty =
      Except.error (CmdError.UsageError "Incorrect number of arguments") ∧
    CmdError.UsageError "Incorrect number of arguments" ≠ CmdError.InvalidPeriod :=
  ⟨by with_unfolding_all rfl, rfl, by decide⟩

/-- Witness for C4: with four arguments and period 0 the failure is
InvalidPeriod; with two arguments it is the usage error. -/
theorem create_clock_invalid_period_witness :
    CreateClockCmd.execute ["create_clock", "-name", "c", "-period", "0"] stEmpty =
      Except.error CmdError.InvalidPeriod ∧
    CreateClockCmd.execute ["create_clock", "x"] stEmpty =
      Except.error (CmdError.UsageError "Incorrect number of arguments") :=
  ⟨create_clock_invalid_period.1 ["create_clock", "-name", "c", "-period", "0"]
     stEmpty paPeriod0 (by with_unfolding_all rfl) (by decide) (le_refl 0),
   create_clock_invalid_period.2 ["create_clock", "x"] stEmpty (by decide)⟩

/-- C7: when both the resolved selection and the fallback lookup of wires
named like the clock produce zero wires, create_clock fails with the
empty-selection error ("Target selection is empty"), and — the error
aborting the command — no clock is added. -/
theorem create_clock_empty_selection (args : List String) (st : SdcState) (pa : CCAcc)
    (h4 : ¬ args.length < 4)
    (hp : ccParse args = Except.ok pa)
    (hper : ¬ pa.period ≤ 0)
    (hsel : collectSelectedWires (ccResolve args pa st) = [])
    (hfb : fallbackWires (ccResolve args pa st) pa.name = []) :
    CreateClockCmd.execute args st = Except.error CmdError.SelectionEmpty := by
  unfold CreateClockCmd.execute
  rw [if_neg h4, hp]
  dsimp only
  unfold ccBody
  rw [if_neg hper]
  have hs : ccSelection args pa st = [] := by
    unfold ccSelection
    rw [hsel, hfb]
    simp
  rw [hs]

/-- Witness for C7: `create_clock -name clk -period 10` on `stTop` — no wire
is selected, and the fallback compares the raw id (backslash-`clk`) with the
plain name `clk`, so it finds nothing either; the command fails with the
empty-selection error. -/
theorem create_clock_empty_selection_witness :
    ccParse ["create_clock", "-name", "clk", "-period", "10"] =
      Except.ok { name := "clk", is_waveform_specified := false, rising_edge := 0,
                  falling_edge := 0, period := 10, argidx := 5 } ∧
    CreateClockCmd.execute ["create_clock", "-name", "clk", "-period", "10"] stTop =
      Except.error CmdError.SelectionEmpty :=
  ⟨by with_unfolding_all rfl,
   create_clock_empty_selection ["create_clock", "-name", "clk", "-period", "10"] stTop
     { name := "clk", is_waveform_specified := false, rising_edge := 0,
       falling_edge := 0, period := 10, argidx := 5 }
     (by decide) (by with_unfolding_all rfl) (by norm_num) (by decide) (by decide)⟩

/-- C8 (amended): the only selection mutation the commands perform is
create_clock's auto-select fallback — on success the design's selection is
the externally resolved one, or, exactly when that resolution selects no
wire, the resolved selection extended by the wires matching the clock name —
and propagate_clocks never touches the design at all; but the fallback's
selection change is NOT logged: a successful create_clock emits no log
message whatsoever. -/
theorem core_selection_frame :
    (∀ args st st2 logs pa, ccParse args = Except.ok pa →
       CreateClockCmd.execute args st = Except.ok (st2, logs) →
       logs = [] ∧
       (st2.design = ccResolve args pa st ∨
         (collectSelectedWires (ccResolve args pa st) = [] ∧
          st2.design = selectFallback (ccResolve args pa st) pa.name))) ∧
    (∀ args st st2 ev, PropagateClocksCmd.execute args st = Except.ok (st2, ev) →
       st2.design = st.design) := by
  constructor
  · intro args st st2 logs pa hp hex
    obtain ⟨-, pa2, hp2, hb⟩ := create_execute_ok_inv args st (st2, logs) hex
    rw [hp] at hp2
    cases hp2
    obtain ⟨hlogs, -, -, hdes, -⟩ := ccBody_ok_inv args pa st st2 logs hb
    exact ⟨hlogs, hdes⟩
  · intro args st st2 ev h
    obtain ⟨hst, -⟩ := propagate_execute_ok_inv args st st2 ev h
    rw [hst]

/-- Counterexample for C8: on `stTop` (empty selection, selected module with
a wire whose raw id is backslash-`clk`), `create_clock -name \clk -period 10`
triggers the auto-select fallback — the selection changes from empty to that
wire — yet the log output of the successful run is the empty list: the
selection change is not logged. -/
theorem core_selection_frame_cex :
    CreateClockCmd.execute ["create_clock", "-name", "\\clk", "-period", "10"] stTop =
      Except.ok (stTopClk, ([] : List String)) ∧
    stTop.design.selected_wires = [] ∧
    stTopClk.design.selected_wires = [("top", "\\clk")] :=
  ⟨by with_unfolding_all rfl, rfl, rfl⟩

/-- Witness for C8 (amended): the concrete fallback run instantiates the
frame theorem; its log list is empty and its final design is the fallback
extension of the resolved selection. -/
theorem core_selection_frame_witness :
    ([] : List String) = [] ∧
    (stTopClk.design =
       ccResolve ["create_clock", "-name", "\\clk", "-period", "10"] paNameClk stTop ∨
     (collectSelectedWires
        (ccResolve ["create_clock", "-name", "\\clk", "-period", "10"] paNameClk stTop) = [] ∧
      stTopClk.design =
        selectFallback
          (ccResolve ["create_clock", "-name", "\\clk", "-period", "10"] paNameClk stTop)
          paNameClk.name)) :=
  core_selection_frame.1 ["create_clock", "-name", "\\clk", "-period", "10"]
    stTop stTopClk [] paNameClk (by with_unfolding_all rfl) (by with_unfolding_all rfl)

/-! ## Lemmas and claims about get_clocks -/

/-- Inversion of get_clocks: a successful run returns exactly the
logical-map translation of the name-keyed clocks map, whatever the
arguments were. -/
theorem gc_execute_ok_inv (args : List String) (st : SdcState)
    (out : List String × List String)
    (h : GetClocksCmd.execute args st = Except.ok out) :
    out.1 = gcListing st := by
  unfold GetClocksCmd.execute at h
  cases hg : gcLoop args args.length 1 false [] with
  | error e => rw [hg] at h; cases h
  | ok t =>
    obtain ⟨flag, nets, idx⟩ := t
    rw [hg] at h
    dsimp only at h
    cases h
    rfl

/-- A create_clock invocation never writes the logical-name map. -/
theorem create_execute_ok_map (args : List String) (st : SdcState)
    (r : SdcState × List String)
    (h : CreateClockCmd.execute args st = Except.ok r) :
    r.1.logical_to_wire_map = st.logical_to_wire_map := by
  obtain ⟨-, pa, -, hb⟩ := create_execute_ok_inv args st r h
  obtain ⟨st2, logs⟩ := r
  obtain ⟨-, -, hm, -, -⟩ := ccBody_ok_inv args pa st st2 logs hb
  exact hm

/-- No sequence of create_clock invocations changes the logical-name map. -/
theorem runCreates_map (calls : List (List String)) :
    ∀ st, (runCreates calls st).logical_to_wire_map = st.logical_to_wire_map := by
  induction calls with
  | nil => intro st; rfl
  | cons a t ih =>
    intro st
    unfold runCreates
    rw [ih]
    cases hex : CreateClockCmd.execute a st with
    | error e => rfl
    | ok r => exact create_execute_ok_map a st r hex

/-- C2 (amended): get_clocks parses but never applies its filtering
arguments.  Every successful invocation — whatever the
`-include_generated_clocks` flag, the `-of` net list or the name patterns —
returns exactly the logical-map translations of the entries of the
name-keyed (`std::map`-sorted, not insertion-ordered) clocks map, clocks
without a logical-map binding being silently omitted. -/
theorem get_clocks_listing (args : List String) (st : SdcState)
    (out : List String × List String)
    (h : GetClocksCmd.execute args st = Except.ok out) :
    out.1 = gcListing st :=
  gc_execute_ok_inv args st out h

/-- Counterexample for C2: a registry with the single clock `clk` (bound to
logical name `CLK`) queried with the pattern `nomatch`.  The name-pattern
filter demanded by the claim would return the empty list, but the command
returns `[CLK]`: the pattern argument is ignored. -/
theorem get_clocks_listing_cex :
    GetClocksCmd.execute ["get_clocks", "nomatch"] stC2 = Except.ok (["CLK"], []) ∧
    GetClocksSpec false [] ["nomatch"] stC2 = [] ∧
    (["CLK"] : List String) ≠ [] :=
  ⟨by with_unfolding_all rfl, by decide, by decide⟩

/-- Witness for C2 (amended): on the same concrete state the returned list
is exactly the logical-map listing. -/
theorem get_clocks_listing_witness :
    GetClocksCmd.execute ["get_clocks", "nomatch"] stC2 = Except.ok (["CLK"], []) ∧
    (["CLK"], ([] : List String)).1 = gcListing stC2 :=
  ⟨by with_unfolding_all rfl,
   get_clocks_listing ["get_clocks", "nomatch"] stC2 (["CLK"], [])
     (by with_unfolding_all rfl)⟩

/-- C9: get_clocks on a session with zero declared clocks succeeds — it is
not an error — returning the empty sequence and emitting the no-clocks
warning (twice, once at the fetch and once at the end of the run). -/
theorem get_clocks_empty_design (st : SdcState) (h : st.registry = []) :
    GetClocksCmd.execute ["get_clocks"] st =
      Except.ok ([], ["No clocks found in design",
                      "No clocks found in design after processing"]) := by
  have hg : Clocks.GetClocks st = [] := by
    unfold Clocks.GetClocks
    rw [h]
    rfl
  unfold GetClocksCmd.execute
  have h1 : gcLoop ["get_clocks"] (["get_clocks"].length) 1 false [] =
      Except.ok (false, [], 1) := rfl
  rw [h1]
  dsimp only
  rw [hg]
  rfl

/-- Witness for C9: the empty session. -/
theorem get_clocks_empty_design_witness :
    stEmpty.registry = [] ∧
    GetClocksCmd.execute ["get_clocks"] stEmpty =
      Except.ok ([], ["No clocks found in design",
                      "No clocks found in design after processing"]) :=
  ⟨rfl, get_clocks_empty_design stEmpty rfl⟩

/-- C10: a clock is listed by get_clocks only when its wire name is bound in
the static logical-name map, and that map is written only by
`create_clock_with_name`, which create_clock never calls.  Hence after any
sequence of create_clock invocations on a session whose map is empty — even
ones that populate the registry — every get_clocks query returns the empty
list. -/
theorem get_clocks_omits_unmapped (calls : List (List String)) (st0 : SdcState)
    (h0 : st0.logical_to_wire_map = []) (args : List String)
    (out : List String × List String)
    (h : GetClocksCmd.execute args (runCreates calls st0) = Except.ok out) :
    out.1 = [] := by
  rw [gc_execute_ok_inv args (runCreates calls st0) out h]
  have hm : (runCreates calls st0).logical_to_wire_map = [] := by
    rw [runCreates_map]
    exact h0
  unfold gcListing
  rw [hm]
  simp [mapFind]

/-- Witness for C10: one successful create_clock populates the registry of
`stTop`, yet get_clocks returns the empty list (and the map is still
empty). -/
theorem get_clocks_omits_unmapped_witness :
    stTop.logical_to_wire_map = [] ∧
    (runCreates [["create_clock", "-name", "\\clk", "-period", "10"]] stTop).registry ≠ [] ∧
    GetClocksCmd.execute ["get_clocks"]
      (runCreates [["create_clock", "-name", "\\clk", "-period", "10"]] stTop) =
      Except.ok (([] : List String), []) ∧
    (([] : List String), ([] : List String)).1 = [] :=
  ⟨rfl, by with_unfolding_all decide, by with_unfolding_all rfl,
   get_clocks_omits_unmapped [["create_clock", "-name", "\\clk", "-period", "10"]]
     stTop rfl ["get_clocks"] ([], []) (by with_unfolding_all rfl)⟩
